import Mathlib

/-!
Verification development for the locale-aware route resolution module
(`src/runtime/routing/compatibles/routing.ts`).

JavaScript strings are modelled as lists of characters (`Str`), JavaScript
objects with a fixed field set as Lean structures, optional / possibly
`undefined` fields as `Option`, and the external `vue-router` instance as a
structure of resolving functions that either return a resolved route or
throw an error object.
-/

namespace I18nRouting

/-- A JavaScript string, modelled as its list of characters. -/
abbrev Str := List Char

/-- Embed a Lean string literal into the model. -/
def str (s : String) : Str := s.toList

/-- Route parameters: a JavaScript object mapping parameter names to values,
modelled as an association list (JavaScript object keys are unique and
ordered by insertion). -/
abbrev Params := List (Str × Str)

/-- The `Strategies` union type of the routing options:
`'no_prefix' | 'prefix' | 'prefix_and_default' | 'prefix_except_default'`. -/
inductive Strategy
  | noPrefixStrat
  | prefixStrat
  | prefixAndDefault
  | prefixExceptDefault
deriving DecidableEq

/-- The `PrefixableOptions` argument of the prefix policy. -/
structure PrefixableOptions where
  currentLocale : Str
  defaultLocale : Str
  strategy : Strategy
deriving DecidableEq

/-- The `RESOLVED_PREFIXED` set of strategies
(`new Set<Strategies>(['prefix_and_default', 'prefix_except_default'])`),
modelled as its membership predicate. -/
def RESOLVED_PREFIXED (s : Strategy) : Bool :=
  decide (s = Strategy.prefixAndDefault) || decide (s = Strategy.prefixExceptDefault)

/-- The default prefix policy `prefixable` of `routing.ts` (lines 24-33):
`!(isDefaultLocale && RESOLVED_PREFIXED.has(strategy)) && !(strategy === 'no_prefix')`. -/
def prefixable (o : PrefixableOptions) : Bool :=
  !(decide (o.currentLocale = o.defaultLocale) && RESOLVED_PREFIXED o.strategy)
    && !(decide (o.strategy = Strategy.noPrefixStrat))

/-- The exported default policy (`export const DefaultPrefixable = prefixable`). -/
def DefaultPrefixable : PrefixableOptions → Bool := prefixable

/-- JavaScript `name.split(sep)[0]` for a non-empty separator `sep`: the part
of `name` strictly before the first occurrence of `sep`, or all of `name`
when `sep` does not occur.  (The module's configured separator is a
non-empty string such as `"___"`; the `sep = []` case of the JavaScript
primitive is never exercised and the guard makes the function total.) -/
def splitFirst (sep s : Str) : Str :=
  match s with
  | [] => []
  | c :: rest =>
    if sep ≠ [] ∧ sep.isPrefixOf (c :: rest) then [] else c :: splitFirst sep rest

theorem splitFirst_eq_self_of_no_match (sep : Str) :
    ∀ (s : Str), ¬ sep <:+: s → splitFirst sep s = s := by
  intro s
  induction s with
  | nil => intro _; rfl
  | cons c rest ih =>
    intro h
    rw [splitFirst, if_neg, ih]
    · intro hin
      exact h (List.infix_cons hin)
    · rintro ⟨hne, hpre⟩
      have hpre2 : sep <+: c :: rest := by simpa using hpre
      exact h (List.IsPrefix.isInfix hpre2)

theorem splitFirst_append (sep : Str) :
    ∀ (b t : Str), ¬ sep <:+: (b ++ sep.dropLast) → splitFirst sep (b ++ sep ++ t) = b := by
  intro b
  induction b with
  | nil =>
    intro t h
    have hsep : sep ≠ [] := by
      rintro rfl
      exact h List.nil_infix
    match sep, hsep with
    | c :: s', _ =>
      rw [List.nil_append, List.cons_append, splitFirst, if_pos]
      refine ⟨by simp, ?_⟩
      simp
  | cons c b' ih =>
    intro t h
    have hsep : sep ≠ [] := by
      rintro rfl
      exact h List.nil_infix
    have h' : ¬ sep <:+: (b' ++ sep.dropLast) := by
      intro hin
      refine h ?_
      rw [List.cons_append]
      exact List.infix_cons hin
    have hcons : (c :: b') ++ sep ++ t = c :: (b' ++ sep ++ t) := by simp
    rw [hcons, splitFirst, if_neg, ih t h']
    rintro ⟨-, hpre0⟩
    have hpre : sep <+: (c :: b') ++ sep ++ t := by simpa using hpre0
    refine h ?_
    have hdl : (c :: b') ++ sep.dropLast ++ ([sep.getLast hsep] ++ t) = (c :: b') ++ sep ++ t := by
      simp only [List.append_assoc]
      rw [← List.append_assoc sep.dropLast, List.dropLast_append_getLast hsep]
    have hApre : (c :: b') ++ sep.dropLast <+: (c :: b') ++ sep ++ t := by
      exact ⟨[sep.getLast hsep] ++ t, hdl⟩
    have hlen : sep.length ≤ ((c :: b') ++ sep.dropLast).length := by
      have h1 : sep.dropLast.length = sep.length - 1 := List.length_dropLast sep
      have h2 : 1 ≤ sep.length := List.length_pos.mpr hsep
      simp only [List.length_append, List.length_cons, h1]
      omega
    exact List.IsPrefix.isInfix
      (List.prefix_of_prefix_length_le hpre hApre hlen)

/-- The `DEFAULT_DYNAMIC_PARAMS_KEY` constant imported from the external
`vue-i18n-routing` package.  Its concrete value plays no role in the proved
properties (only equality with itself is ever tested). -/
def DEFAULT_DYNAMIC_PARAMS_KEY : Str := str ("nuxtI18n")

/-- The i18n routing options returned by `getI18nRoutingOptions` (the fields
of `I18nRoutingOptions` read by `routing.ts`).  `prefixable` and
`switchLocalePathIntercepter` are caller-supplied functions (with
`DefaultPrefixable` and the identity as defaults); `dynamicParamsInterceptor`
is an optional provider of a per-locale params map (the reactive-`ref`
indirection of the original is collapsed into the `Option`). -/
structure RoutingOptions where
  defaultLocale : Str
  strategy : Strategy
  routesNameSeparator : Str
  defaultLocaleRouteNameSuffix : Str
  trailingSlash : Bool
  prefixable : PrefixableOptions → Bool
  switchLocalePathIntercepter : Str → Str → Str
  dynamicRouteParamsKey : Str
  dynamicParamsInterceptor : Option (List (Str × Params))

/-- Modelled from the spec: the helper `getRouteName` (from `../utils`, not
part of the excerpt) normalizes a possibly-missing route name to a plain
string; the spec does not constrain the missing case, which is modelled as
a fixed placeholder string. -/
def getRouteName : Option Str → Str
  | some s => s
  | none => str ("(null)")

/-- Modelled from the spec (§4.2, Name Codec `encode`): the helper
`getLocaleRouteName` (from `../utils`, not part of the excerpt) appends
`separator + locale` to the base name, except that for strategy
`prefix_and_default` with `locale = defaultLocale` the suffix is
`defaultLocaleRouteNameSuffix` instead of the locale token, and for
`no_prefix` no suffix is appended at all. -/
def getLocaleRouteName (base : Option Str) (locale : Str) (o : RoutingOptions) : Str :=
  let b := getRouteName base
  match o.strategy with
  | Strategy.noPrefixStrat => b
  | Strategy.prefixAndDefault =>
    if locale = o.defaultLocale then
      b ++ o.routesNameSeparator ++ o.defaultLocaleRouteNameSuffix
    else
      b ++ o.routesNameSeparator ++ locale
  | Strategy.prefixStrat => b ++ o.routesNameSeparator ++ locale
  | Strategy.prefixExceptDefault => b ++ o.routesNameSeparator ++ locale

/-- A sample options record used for concrete witnesses: the module's default
configuration (separator `"___"`, default-locale suffix `"default"`, default
prefix policy, identity switch-path interceptor, default dynamic-params key,
no interceptor). -/
def mkOpts (strat : Strategy) (ts : Bool) : RoutingOptions :=
  { defaultLocale := str ("en"),
    strategy := strat,
    routesNameSeparator := str ("___"),
    defaultLocaleRouteNameSuffix := str ("default"),
    trailingSlash := ts,
    prefixable := DefaultPrefixable,
    switchLocalePathIntercepter := fun p _ => p,
    dynamicRouteParamsKey := DEFAULT_DYNAMIC_PARAMS_KEY,
    dynamicParamsInterceptor := none }

/-- Claim C2 (confirmed): the default prefixable predicate returns `false`
for strategy `no_prefix` regardless of locale equality, returns `false` when
the current locale equals the default locale and the strategy is
`prefix_and_default` or `prefix_except_default`, and returns `true` in every
other case; in particular it always returns `true` for strategy `prefix`. -/
theorem C2_default_prefixable_spec (c d : Str) (s : Strategy) :
    (DefaultPrefixable { currentLocale := c, defaultLocale := d, strategy := s } = true ↔
      s ≠ Strategy.noPrefixStrat ∧
        ¬(c = d ∧ (s = Strategy.prefixAndDefault ∨ s = Strategy.prefixExceptDefault))) ∧
    DefaultPrefixable
        { currentLocale := c, defaultLocale := d, strategy := Strategy.prefixStrat } = true := by
  constructor
  · cases s <;> by_cases h : c = d <;>
      simp [DefaultPrefixable, prefixable, RESOLVED_PREFIXED, h]
  · by_cases h : c = d <;> simp [DefaultPrefixable, prefixable, RESOLVED_PREFIXED, h]

/-- Claim C3 (corrected), counterexample: the base name `"a_"` does not
contain the default separator `"___"` as a substring, yet encoding it for
locale `"fr"` under strategy `prefix` gives `"a____fr"`, whose first
occurrence of `"___"` starts inside the base name, so decoding (splitting on
the first occurrence of the separator, as `getRouteBaseName` does) yields
`"a"`, not `"a_"`. -/
theorem C3_roundtrip_cex :
    ¬ (str ("___")) <:+: (str ("a_")) ∧
    getLocaleRouteName (some (str ("a_"))) (str ("fr"))
        (mkOpts Strategy.prefixStrat false) = str ("a____fr") ∧
    splitFirst (str ("___"))
        (getLocaleRouteName (some (str ("a_"))) (str ("fr"))
          (mkOpts Strategy.prefixStrat false))
      ≠ str ("a_") := by
  refine ⟨by decide, by decide, by decide⟩

/-- Claim C3 (corrected), amended: decoding recovers the base name `b`
provided the separator's first occurrence in the encoded name is the
appended one — i.e. the separator does not occur anywhere in
`b ++ sep.dropLast` (which in particular implies `b` does not contain the
separator, and rules out separators that overlap the junction, such as a
base name ending in `"_"` with separator `"___"`). -/
theorem C3_roundtrip_amended (b locale : Str) (o : RoutingOptions)
    (h : ¬ o.routesNameSeparator <:+: (b ++ o.routesNameSeparator.dropLast)) :
    splitFirst o.routesNameSeparator (getLocaleRouteName (some b) locale o) = b := by
  have hb : ¬ o.routesNameSeparator <:+: b := by
    intro hin
    obtain ⟨u, v, huv⟩ := hin
    exact h ⟨u, v ++ o.routesNameSeparator.dropLast, by rw [← List.append_assoc, huv]⟩
  cases hs : o.strategy with
  | noPrefixStrat =>
    simp only [getLocaleRouteName, hs, getRouteName]
    exact splitFirst_eq_self_of_no_match _ _ hb
  | prefixAndDefault =>
    simp only [getLocaleRouteName, hs, getRouteName]
    by_cases hd : locale = o.defaultLocale
    · rw [if_pos hd]
      exact splitFirst_append _ _ _ h
    · rw [if_neg hd]
      exact splitFirst_append _ _ _ h
  | prefixStrat =>
    simp only [getLocaleRouteName, hs, getRouteName]
    exact splitFirst_append _ _ _ h
  | prefixExceptDefault =>
    simp only [getLocaleRouteName, hs, getRouteName]
    exact splitFirst_append _ _ _ h

/-- Witness for the amended C3: the default separator with base name
`"about"` and locale `"fr"` round-trips. -/
theorem C3_roundtrip_witness :
    splitFirst (mkOpts Strategy.prefixStrat false).routesNameSeparator
        (getLocaleRouteName (some (str ("about"))) (str ("fr"))
          (mkOpts Strategy.prefixStrat false))
      = str ("about") :=
  C3_roundtrip_amended (str ("about")) (str ("fr"))
    (mkOpts Strategy.prefixStrat false) (by decide)

/-- Split a string at the first occurrence of character `c`: the first
component is everything strictly before it, the second everything from `c`
on (empty when `c` does not occur). -/
def splitAtChar (c : Char) (s : Str) : Str × Str :=
  (s.takeWhile (fun a => !(a == c)), s.dropWhile (fun a => !(a == c)))

/-- The result of `parsePath` from the external `ufo` URL library. -/
structure ParsedPath where
  pathname : Str
  search : Str
  hash : Str
deriving DecidableEq

/-- Model of `parsePath` from the external `ufo` URL library: `pathname` is
the longest prefix free of `?` and `#`, `search` runs from a leading `?` up
to the first `#` (including the `?`), and `hash` runs from the first `#` to
the end (including the `#`). -/
def parsePath (s : Str) : ParsedPath :=
  let pathname := s.takeWhile (fun c => !(c == '#') && !(c == '?'))
  let rest := s.dropWhile (fun c => !(c == '#') && !(c == '?'))
  if rest.head? = some '?' then
    { pathname := pathname,
      search := rest.takeWhile (fun c => !(c == '#')),
      hash := rest.dropWhile (fun c => !(c == '#')) }
  else
    { pathname := pathname, search := [], hash := rest }

/-- A query value: a single string or a list of strings (a repeated key). -/
inductive QVal
  | one (v : Str)
  | many (vs : List Str)
deriving DecidableEq

/-- A parsed query object: key to value-or-list, keys in insertion order. -/
abbrev Query := List (Str × QVal)

/-- Model of the key-insertion step of `ufo`'s `parseQuery`: a fresh key is
appended with a single value; a repeated key collects its values into a
list. -/
def queryInsert (q : Query) (k : Str) (v : Str) : Query :=
  match q.find? (fun kv => kv.1 == k) with
  | none => q ++ [(k, QVal.one v)]
  | some _ =>
    q.map (fun kv =>
      if kv.1 == k then
        (kv.1, match kv.2 with
          | QVal.one o => QVal.many [o, v]
          | QVal.many vs => QVal.many (vs ++ [v]))
      else kv)

/-- One `&`-separated parameter of a query string, per `ufo`'s
`([^=]+)=?(.*)` parameter pattern: leading `=` characters are skipped, the
key is the following run of non-`=` characters, one `=` is consumed, and the
rest is the value; a parameter with no key characters is dropped, as are the
prototype-polluting keys. -/
def parseQueryParam (q : Query) (param : Str) : Query :=
  let t := param.dropWhile (fun c => c == '=')
  match t with
  | [] => q
  | _ :: _ =>
    let key := t.takeWhile (fun c => !(c == '='))
    let rest := t.dropWhile (fun c => !(c == '='))
    let value := rest.tail
    if key = str ("__proto__") ∨ key = str ("constructor") then q
    else queryInsert q key value

/-- Model of `parseQuery` from the external `ufo` URL library (its
percent/plus decoding of keys and values is abstracted as the identity): a
leading `?` is dropped, the string is split on `&`, and each parameter is
inserted in order. -/
def parseQuery (s : Str) : Query :=
  let s' := if s.head? = some '?' then s.tail else s
  (s'.splitOn '&').foldl parseQueryParam []

/-- Model of `ufo`'s `hasTrailingSlash(input, true)` (query/fragment aware):
the regex `/\/$|\/\?|\/#/` — the string ends with `/`, or contains `/?` or
`/#`. -/
def hasTrailingSlashQF (s : Str) : Bool :=
  s.getLast? == some '/' || decide (['/', '?'] <:+: s) || decide (['/', '#'] <:+: s)

/-- Model of `ufo`'s `withTrailingSlash(input, true)`: if the path part
already has a trailing slash the input is returned (empty input becomes
`/`); otherwise a `/` is appended to the path part, before any query string
and fragment (an input that is only a fragment is returned as-is). -/
def withTrailingSlashQF (s : Str) : Str :=
  if hasTrailingSlashQF s then (if s = [] then ['/'] else s)
  else
    let pf := splitAtChar '#' s
    if pf.2 ≠ [] ∧ pf.1 = [] then pf.2
    else
      let qp := splitAtChar '?' pf.1
      qp.1 ++ ['/'] ++ qp.2 ++ pf.2

/-- Model of `ufo`'s `withoutTrailingSlash(input, true)`: if the path part
has no trailing slash the input is returned (empty input becomes `/`);
otherwise one trailing `/` is removed from the path part — which is restored
to `/` when it becomes empty — keeping any query string and fragment. -/
def withoutTrailingSlashQF (s : Str) : Str :=
  if !hasTrailingSlashQF s then (if s = [] then ['/'] else s)
  else
    let pf := splitAtChar '#' s
    let qp := splitAtChar '?' pf.1
    let cleanPath := if qp.1.getLast? == some '/' then qp.1.dropLast else qp.1
    (if cleanPath = [] then ['/'] else cleanPath) ++ qp.2 ++ pf.2

/-- A `RouteLocationPathRaw | RouteLocationNamedRaw` route descriptor: a
bare location object.  `Option` fields model JavaScript key absence. -/
structure RawRoute where
  name : Option Str := none
  path : Option Str := none
  params : Params := []
  query : Query := []
  hash : Str := []
  state : Option Str := none
deriving DecidableEq

/-- A `RouteLocationRaw` route reference as accepted by `resolveRoute`:
either a string or a bare location object. -/
inductive RouteRef
  | strRef (s : Str)
  | obj (r : RawRoute)
deriving DecidableEq

/-- The route normalizer of `resolveRoute` (lines 146-160): a string
beginning with `/` is parsed into `{path, query, hash}` via `parsePath` and
`parseQuery`; any other string becomes `{name}`; an object passes through
unchanged. -/
def normalizeRouteRef (route : RouteRef) : RawRoute :=
  match route with
  | RouteRef.strRef s =>
    if s.head? = some '/' then
      let pp := parsePath s
      { path := some pp.pathname, query := parseQuery pp.search, hash := pp.hash }
    else
      { name := some s }
  | RouteRef.obj r => r

/-- Claim C7 (confirmed): the route normalizer maps every string route
reference beginning with `/` to a `{path, query, hash}` descriptor whose
query string is parsed into a key-to-value-or-list mapping, maps every other
string `s` to `{name := s}`, and passes every object route reference through
unchanged. -/
theorem C7_normalizer_spec :
    (∀ s : Str, s.head? = some '/' →
      normalizeRouteRef (RouteRef.strRef s) =
        { name := none, path := some (parsePath s).pathname,
          params := [], query := parseQuery (parsePath s).search,
          hash := (parsePath s).hash, state := none }) ∧
    (∀ s : Str, s.head? ≠ some '/' →
      normalizeRouteRef (RouteRef.strRef s) =
        { name := some s, path := none, params := [], query := [],
          hash := [], state := none }) ∧
    (∀ r : RawRoute, normalizeRouteRef (RouteRef.obj r) = r) := by
  refine ⟨?_, ?_, ?_⟩
  · intro s h
    simp [normalizeRouteRef, h]
  · intro s h
    simp [normalizeRouteRef, h]
  · intro r
    rfl

/-- Witness for C7: the path string `"/about?x=1&x=2#top"` normalizes to a
path descriptor with parsed query (value list for the repeated key `x`) and
fragment. -/
theorem C7_normalizer_witness :
    normalizeRouteRef (RouteRef.strRef (str ("/about?x=1&x=2#top"))) =
      { name := none, path := some (str ("/about")),
        params := [],
        query := [(str ("x"), QVal.many [str ("1"), str ("2")])],
        hash := str ("#top"), state := none } := by
  have h := C7_normalizer_spec.1 (str ("/about?x=1&x=2#top")) (by decide)
  exact h.trans (by decide)

/-- An error object thrown by the external router.  `type` models the
numeric discriminator field checked by `resolveRoute`'s catch clause
(`'type' in e && e.type === 1`); `none` means the thrown object has no
`type` field.  `type = some 1` is vue-router's "no match". -/
structure JSErr where
  type : Option Int
deriving DecidableEq

/-- A resolved route returned by the external router (also used for the
current route `this.route`): `name`, `params`, `query`, `hash`, `path`,
`fullPath`, an optional `redirectedFrom.fullPath`, optional `state`, and the
route `meta` object (a map from meta keys to per-locale params maps, as read
by the dynamic-params extraction). -/
instance instDecEqMetaEntry : DecidableEq (Str × List (Str × Params)) :=
  instDecidableEqProd

instance instDecEqMeta : DecidableEq (List (Str × List (Str × Params))) :=
  instDecidableEqList

structure RouteObj where
  name : Option Str := none
  params : Params := []
  query : Query := []
  hash : Str := []
  path : Str := []
  fullPath : Str := []
  redirectedFrom : Option Str := none
  state : Option Str := none
  meta : List (Str × List (Str × Params)) := []
deriving DecidableEq

deriving instance DecidableEq for Except

/-- The external router collaborator.  `resolve` is `router.resolve`, which
either returns a resolved route or throws.  `discover` models the repository
helper `resolve(router, route, strategy, locale)` from `./utils` — modelled
from the spec (§4.4 step 3a): it attempts to resolve the unlocalized path
descriptor through the external router to discover a matching named route,
and may throw. -/
structure Router where
  resolve : RouteRef → Except JSErr RouteObj
  discover : RawRoute → Strategy → Str → Except JSErr RouteObj

/-- The receiver context (`RoutingProxy`): the router, the current route
(`this.route`), the routing options (as returned by
`getI18nRoutingOptions`), and the active locale of the translation context
(`getLocale(i18n)`). -/
structure Ctx where
  router : Router
  currentRoute : Option RouteObj
  opts : RoutingOptions
  i18nLocale : Str

/-- Effective locale of a resolution call: `locale || getLocale(i18n)` — the
explicit argument unless it is absent or the empty string. -/
def effLocale (ctx : Ctx) : Option Str → Str
  | some l => if l = [] then ctx.i18nLocale else l
  | none => ctx.i18nLocale

/-- `getRouteBaseName` (lines 50-62): take the given route, or the current
route when none is given (also when the given route is `null`, as happens
when a swallowed discovery error left it so); return `undefined` when the
route or its name is missing/empty, else the name split on the first
occurrence of the configured separator. -/
def getRouteBaseName (ctx : Ctx) (givenRoute : Option RouteObj) : Option Str :=
  let route := match givenRoute with
    | some r => some r
    | none => ctx.currentRoute
  match route with
  | none => none
  | some r =>
    match r.name with
    | none => none
    | some n => if n = [] then none else some (splitFirst ctx.opts.routesNameSeparator n)

/-- JavaScript truthiness of a route name: present and non-empty. -/
def truthyName : Option Str → Bool
  | some n => !n.isEmpty
  | none => false

/-- The structural path test of `resolveRoute` (lines 164-165):
`'path' in val && !!val.path && !('name' in val)`. -/
def isRouteLocationPathRaw (r : RawRoute) : Bool :=
  r.path.isSome && !(r.path.getD []).isEmpty && r.name.isNone

/-- Outcome of the localization phase of `resolveRoute` (lines 146-214),
before the final router resolution: either the localized descriptor handed
to `router.resolve`, or a thrown `TypeError` (`crash`) — the latter happens
when the discovery resolve threw (so `resolvedRoute` is `null`) while the
current route still supplied a base name, and the code then reads
`resolvedRoute.params`. -/
inductive LStep
  | final (lr : RawRoute)
  | crash
deriving DecidableEq

/-- The localization phase of `resolveRoute` (lines 146-214): normalize the
route reference; for a path-based descriptor run the discovery resolve
(errors swallowed), and either rebuild a name-based descriptor from the
discovered base name (encoding it for the locale) or apply the prefix policy
and trailing-slash normalization to the bare path; for a name-based
descriptor (falling back to the current route's base name when neither name
nor path is given) encode the name for the locale. -/
def localizeStep (ctx : Ctx) (route : RouteRef) (localeArg : Option Str) : LStep :=
  let _locale := effLocale ctx localeArg
  let o := ctx.opts
  let localizedRoute := normalizeRouteRef route
  if isRouteLocationPathRaw localizedRoute then
    let _resolvedRoute := (ctx.router.discover localizedRoute o.strategy _locale).toOption
    match getRouteBaseName ctx _resolvedRoute with
    | some rn =>
      match _resolvedRoute with
      | none => LStep.crash
      | some rr =>
        LStep.final
          { name := some (getLocaleRouteName (some rn) _locale o),
            path := none, params := rr.params, query := rr.query,
            hash := rr.hash, state := rr.state }
    | none =>
      let p0 := localizedRoute.path.getD []
      let p1 :=
        if o.prefixable
            { currentLocale := _locale, defaultLocale := o.defaultLocale,
              strategy := o.strategy } then
          ['/'] ++ _locale ++ p0
        else p0
      let p2 := if o.trailingSlash then withTrailingSlashQF p1 else withoutTrailingSlashQF p1
      LStep.final { localizedRoute with path := some p2 }
  else
    let lr1 :=
      if !truthyName localizedRoute.name && localizedRoute.path.isNone then
        { localizedRoute with name := getRouteBaseName ctx ctx.currentRoute }
      else localizedRoute
    LStep.final { lr1 with name := some (getLocaleRouteName lr1.name _locale o) }

/-- The final resolution of `resolveRoute` (lines 216-223) before the catch:
resolve the localized descriptor; if the result has a truthy name return it,
else resolve the original route reference as given by the caller; a thrown
error from either call escapes to the catch clause. -/
def finalResolveExc (ctx : Ctx) (lr : RawRoute) (orig : RouteRef) : Except JSErr RouteObj :=
  match ctx.router.resolve (RouteRef.obj lr) with
  | Except.error e => Except.error e
  | Except.ok rr =>
    if truthyName rr.name then Except.ok rr
    else ctx.router.resolve orig

/-- What `resolveRoute` produces for its caller: a resolved route, the
literal `null`, the implicit `undefined` of falling off the catch clause, or
a thrown `TypeError` from the `crash` path. -/
inductive ResolveResult
  | route (r : RouteObj)
  | null
  | undef
  | tyerr
deriving DecidableEq

/-- The catch clause of `resolveRoute` (lines 224-229): a thrown error whose
`type` field equals `1` ("no match") yields `null`; any other caught error
falls off the end of the catch block, yielding `undefined`. -/
def catchNoMatch : Except JSErr RouteObj → ResolveResult
  | Except.ok r => ResolveResult.route r
  | Except.error e => if e.type = some 1 then ResolveResult.null else ResolveResult.undef

/-- `resolveRoute` (lines 139-230): the localization phase followed by the
final resolution under the catch clause. -/
def resolveRoute (ctx : Ctx) (route : RouteRef) (locale : Option Str) : ResolveResult :=
  match localizeStep ctx route locale with
  | LStep.crash => ResolveResult.tyerr
  | LStep.final lr => catchNoMatch (finalResolveExc ctx lr route)

/-- What `localePath` produces: a path string, or a propagated exception. -/
inductive PathResult
  | path (p : Str)
  | err
deriving DecidableEq

/-- `localePath` (lines 78-88): empty string when `resolveRoute` returned
`null` or `undefined`, else `redirectedFrom?.fullPath || fullPath`. -/
def localePath (ctx : Ctx) (route : RouteRef) (locale : Option Str) : PathResult :=
  match resolveRoute ctx route locale with
  | ResolveResult.tyerr => PathResult.err
  | ResolveResult.null => PathResult.path []
  | ResolveResult.undef => PathResult.path []
  | ResolveResult.route r =>
    PathResult.path
      (match r.redirectedFrom with
        | some p => if p = [] then r.fullPath else p
        | none => r.fullPath)

/-- Claim C4 (confirmed): when the final resolution of the localized
descriptor succeeds with a non-empty name, `resolveRoute` returns that
resolved route; when it succeeds but the name is missing or empty,
`resolveRoute` resolves the original route reference exactly as given by
the caller and returns that result, which may itself be unnamed. -/
theorem C4_final_resolution_spec (ctx : Ctx) (route : RouteRef) (locale : Option Str)
    (lr : RawRoute) (hstep : localizeStep ctx route locale = LStep.final lr) :
    (∀ rr : RouteObj, ctx.router.resolve (RouteRef.obj lr) = Except.ok rr →
      truthyName rr.name = true →
      resolveRoute ctx route locale = ResolveResult.route rr) ∧
    (∀ rr rr2 : RouteObj, ctx.router.resolve (RouteRef.obj lr) = Except.ok rr →
      truthyName rr.name = false →
      ctx.router.resolve route = Except.ok rr2 →
      resolveRoute ctx route locale = ResolveResult.route rr2) := by
  constructor
  · intro rr hok hname
    have hfin : finalResolveExc ctx lr route = Except.ok rr := by
      simp only [finalResolveExc, hok, hname, if_true]
    simp only [resolveRoute, hstep, hfin, catchNoMatch]
  · intro rr rr2 hok hname horig
    have hfin : finalResolveExc ctx lr route = Except.ok rr2 := by
      simp only [finalResolveExc, hok, hname, Bool.false_eq_true, if_false, horig]
    simp only [resolveRoute, hstep, hfin, catchNoMatch]

/-- A router for concrete witnesses: `resolve` returns `named` for the
localized object descriptor and `orig` for anything else, `discover` always
reports a type-1 error. -/
def twoPhaseRouter (localized : RawRoute) (named orig : RouteObj) : Router :=
  { resolve := fun r => if r = RouteRef.obj localized then Except.ok named else Except.ok orig,
    discover := fun _ _ _ => Except.error { type := some 1 } }

/-- The named route used by the C4 witness. -/
def namedAboutEn : RouteObj :=
  { name := some (str ("about___en")), fullPath := str ("/about") }

/-- The localized descriptor produced for the name reference `"about"` under
strategy `prefix` with locale `"en"`. -/
def lrAboutEn : RawRoute := { name := some (str ("about___en")) }

/-- The witness context for C4. -/
def ctxC4 : Ctx :=
  { router := twoPhaseRouter lrAboutEn namedAboutEn { fullPath := str ("/x") },
    currentRoute := none,
    opts := mkOpts Strategy.prefixStrat false,
    i18nLocale := str ("en") }

/-- Witness for C4: resolving the name reference `"about"` in `ctxC4`
returns the named route the router resolved for the localized descriptor. -/
theorem C4_final_resolution_witness :
    resolveRoute ctxC4 (RouteRef.strRef (str ("about"))) none =
      ResolveResult.route namedAboutEn :=
  (C4_final_resolution_spec ctxC4 (RouteRef.strRef (str ("about"))) none lrAboutEn
      (by decide)).1
    namedAboutEn (by decide) (by decide)

/-- Claim C5 (confirmed): when the final resolution throws an error whose
`type` tag is `1` ("no match"), `resolveRoute` returns `null` and
consequently `localePath` on the same input returns the empty string. -/
theorem C5_no_match_null (ctx : Ctx) (route : RouteRef) (locale : Option Str)
    (lr : RawRoute) (e : JSErr)
    (hstep : localizeStep ctx route locale = LStep.final lr)
    (herr : finalResolveExc ctx lr route = Except.error e)
    (htype : e.type = some 1) :
    resolveRoute ctx route locale = ResolveResult.null ∧
      localePath ctx route locale = PathResult.path [] := by
  have hr : resolveRoute ctx route locale = ResolveResult.null := by
    simp only [resolveRoute, hstep, herr, catchNoMatch, htype, if_true]
  refine ⟨hr, ?_⟩
  simp only [localePath, hr]

/-- A router whose every resolution throws the given error. -/
def errRouter (t : Option Int) : Router :=
  { resolve := fun _ => Except.error { type := t },
    discover := fun _ _ _ => Except.error { type := t } }

/-- The witness context for C5: every resolution throws a type-1 error. -/
def ctxC5 : Ctx :=
  { router := errRouter (some 1),
    currentRoute := none,
    opts := mkOpts Strategy.prefixStrat false,
    i18nLocale := str ("en") }

/-- Witness for C5: in `ctxC5`, resolving the name reference `"about"`
yields `null` and `localePath` yields the empty string. -/
theorem C5_no_match_null_witness :
    resolveRoute ctxC5 (RouteRef.strRef (str ("about"))) none = ResolveResult.null ∧
      localePath ctxC5 (RouteRef.strRef (str ("about"))) none = PathResult.path [] :=
  C5_no_match_null ctxC5 (RouteRef.strRef (str ("about"))) none
    lrAboutEn { type := some 1 } (by decide) (by decide) (by decide)

/-- The witness/counterexample context for C6: every resolution throws an
error with `type = 2` — not a "no match" error. -/
def ctxC6 : Ctx :=
  { router := errRouter (some 2),
    currentRoute := none,
    opts := mkOpts Strategy.prefixStrat false,
    i18nLocale := str ("en") }

/-- Claim C6 (corrected), counterexample: the final resolution of the name
reference `"about"` in `ctxC6` throws an error with `type = 2` — not a
no-match error — yet `resolveRoute` does not let it propagate: the catch
clause catches every thrown error, its `if` falls through, and the call
returns `undefined`. -/
theorem C6_propagation_cex :
    localizeStep ctxC6 (RouteRef.strRef (str ("about"))) none = LStep.final lrAboutEn ∧
    finalResolveExc ctxC6 lrAboutEn (RouteRef.strRef (str ("about"))) =
      Except.error { type := some 2 } ∧
    resolveRoute ctxC6 (RouteRef.strRef (str ("about"))) none = ResolveResult.undef := by
  refine ⟨by decide, by decide, by decide⟩

/-- Claim C6 (corrected), amended: an error thrown by the final resolution
that is not a no-match error does not propagate either — it is caught by the
same catch clause, whose body returns nothing for it, so `resolveRoute`
returns `undefined` (a result distinct from `null`). -/
theorem C6_propagation_amended (ctx : Ctx) (route : RouteRef) (locale : Option Str)
    (lr : RawRoute) (e : JSErr)
    (hstep : localizeStep ctx route locale = LStep.final lr)
    (herr : finalResolveExc ctx lr route = Except.error e)
    (htype : ¬ e.type = some 1) :
    resolveRoute ctx route locale = ResolveResult.undef := by
  simp only [resolveRoute, hstep, herr, catchNoMatch, htype, if_false]

/-- Witness for the amended C6: the type-2 error of `ctxC6` yields
`undefined`. -/
theorem C6_propagation_witness :
    resolveRoute ctxC6 (RouteRef.strRef (str ("about"))) none = ResolveResult.undef :=
  C6_propagation_amended ctxC6 (RouteRef.strRef (str ("about"))) none
    lrAboutEn { type := some 2 } (by decide) (by decide) (by decide)

theorem splitAtChar_eq_of_not_mem {c : Char} {s : Str} (h : c ∉ s) :
    splitAtChar c s = (s, []) := by
  rw [splitAtChar, Prod.mk.injEq]
  refine ⟨?_, ?_⟩
  · rw [List.takeWhile_eq_self_iff]
    intro a ha
    simp only [Bool.not_eq_eq_eq_not, Bool.not_true, beq_eq_false_iff_ne, ne_eq]
    rintro rfl
    exact h ha
  · rw [List.dropWhile_eq_nil_iff]
    intro a ha
    simp only [Bool.not_eq_eq_eq_not, Bool.not_true, beq_eq_false_iff_ne, ne_eq]
    rintro rfl
    exact h ha

theorem hasTrailingSlashQF_eq_false {s : Str}
    (hq : ('?' : Char) ∉ s) (hh : ('#' : Char) ∉ s)
    (hl : s.getLast? ≠ some '/') : hasTrailingSlashQF s = false := by
  rw [hasTrailingSlashQF]
  simp only [Bool.or_eq_false_iff, beq_eq_false_iff_ne, ne_eq, decide_eq_false_iff_not]
  refine ⟨⟨hl, ?_⟩, ?_⟩
  · intro hin
    exact hq (hin.subset (by simp))
  · intro hin
    exact hh (hin.subset (by simp))

theorem withTrailingSlashQF_no_special {s : Str}
    (hq : ('?' : Char) ∉ s) (hh : ('#' : Char) ∉ s)
    (hl : s.getLast? ≠ some '/') : withTrailingSlashQF s = s ++ ['/'] := by
  rw [withTrailingSlashQF, hasTrailingSlashQF_eq_false hq hh hl]
  simp only [Bool.false_eq_true, if_false, splitAtChar_eq_of_not_mem hh,
    splitAtChar_eq_of_not_mem hq, ne_eq, not_true_eq_false, false_and, if_false,
    List.append_nil]

theorem withoutTrailingSlashQF_no_special {s : Str} (hne : s ≠ [])
    (hq : ('?' : Char) ∉ s) (hh : ('#' : Char) ∉ s)
    (hl : s.getLast? ≠ some '/') : withoutTrailingSlashQF s = s := by
  rw [withoutTrailingSlashQF, hasTrailingSlashQF_eq_false hq hh hl]
  simp [hne]

/-- The path built by the fallback branch of the path-based case of
`resolveRoute` (lines 193-197), before trailing-slash normalization: the
locale segment is prepended exactly when the configured prefix policy allows
it for `(locale, defaultLocale, strategy)`. -/
def prefixedPath (ctx : Ctx) (loc : Option Str) (p : Str) : Str :=
  if ctx.opts.prefixable
      { currentLocale := effLocale ctx loc,
        defaultLocale := ctx.opts.defaultLocale,
        strategy := ctx.opts.strategy } then
    ['/'] ++ effLocale ctx loc ++ p
  else p

theorem prefixedPath_not_mem {c : Char} {ctx : Ctx} {loc : Option Str} {p : Str}
    (hp : c ∉ p) (hl : c ∉ effLocale ctx loc) (hc : c ≠ '/') :
    c ∉ prefixedPath ctx loc p := by
  rw [prefixedPath]
  split
  · simp only [List.mem_append, List.mem_singleton]
    rintro ((rfl | h) | h)
    · exact hc rfl
    · exact hl h
    · exact hp h
  · exact hp

theorem prefixedPath_getLast? {ctx : Ctx} {loc : Option Str} {p : Str} (hne : p ≠ []) :
    (prefixedPath ctx loc p).getLast? = p.getLast? := by
  rw [prefixedPath]
  split
  · cases hpl : p.getLast? with
    | none => exact absurd (List.getLast?_eq_none_iff.mp hpl) hne
    | some a =>
      rw [List.getLast?_append, hpl, Option.or_some]
  · rfl

theorem prefixedPath_ne_nil {ctx : Ctx} {loc : Option Str} {p : Str} (hne : p ≠ []) :
    prefixedPath ctx loc p ≠ [] := by
  rw [prefixedPath]
  split
  · simp
  · exact hne

/-- Claim C1 (corrected), counterexample: strategy `no_prefix` (the prefix
policy denies prefixing), root path `/`, `trailingSlash = false`, discovery
yields no named route — the localized path is `/`, which still ends with
`/`, against the claim's "does not end with `/` otherwise":
`withoutTrailingSlash` restores a bare `/` rather than producing an empty
path. -/
theorem C1_path_fallback_cex :
    localizeStep
        { router := errRouter (some 1), currentRoute := none,
          opts := mkOpts Strategy.noPrefixStrat false, i18nLocale := str ("en") }
        (RouteRef.obj { path := some ['/'] }) none =
      LStep.final { path := some ['/'] } ∧
    (mkOpts Strategy.noPrefixStrat false).trailingSlash = false ∧
    (['/'] : Str).getLast? = some '/' :=
  ⟨by decide, by decide, by decide⟩

/-- Claim C1 (corrected), amended: for a path-based route reference (path
present and non-empty, no name) whose discovery resolve yields no named
route, and whose path and locale contain no `?` or `#` with the path not
already ending in `/`, the localization phase prepends `/<locale>` exactly
when the prefix policy allows it, and then appends a trailing `/` exactly
when the `trailingSlash` option is set — so the localized path ends with `/`
if and only if `trailingSlash` is `true`. -/
theorem C1_path_fallback (ctx : Ctx) (r0 : RawRoute) (loc : Option Str) (p : Str)
    (hname : r0.name = none) (hpath : r0.path = some p) (hne : p ≠ [])
    (hdisc : getRouteBaseName ctx
      (ctx.router.discover r0 ctx.opts.strategy (effLocale ctx loc)).toOption = none)
    (hq : ('?' : Char) ∉ p) (hh : ('#' : Char) ∉ p)
    (hsl : p.getLast? ≠ some '/')
    (hlq : ('?' : Char) ∉ effLocale ctx loc) (hlh : ('#' : Char) ∉ effLocale ctx loc) :
    localizeStep ctx (RouteRef.obj r0) loc =
      LStep.final
        { r0 with
          path := some (prefixedPath ctx loc p ++
            (if ctx.opts.trailingSlash then ['/'] else [])) } ∧
    ((prefixedPath ctx loc p ++
        (if ctx.opts.trailingSlash then ['/'] else [])).getLast? = some '/' ↔
      ctx.opts.trailingSlash = true) := by
  have hp1q : ('?' : Char) ∉ prefixedPath ctx loc p :=
    prefixedPath_not_mem hq hlq (by decide)
  have hp1h : ('#' : Char) ∉ prefixedPath ctx loc p :=
    prefixedPath_not_mem hh hlh (by decide)
  have hp1l : (prefixedPath ctx loc p).getLast? ≠ some '/' := by
    rw [prefixedPath_getLast? hne]
    exact hsl
  have hp1ne : prefixedPath ctx loc p ≠ [] := prefixedPath_ne_nil hne
  have hraw : isRouteLocationPathRaw r0 = true := by
    simp [isRouteLocationPathRaw, hpath, hname, hne]
  constructor
  · rw [localizeStep]
    simp only [normalizeRouteRef, hraw, if_true, hdisc, hpath, Option.getD_some]
    have hbody :
        (if ctx.opts.trailingSlash then withTrailingSlashQF (prefixedPath ctx loc p)
          else withoutTrailingSlashQF (prefixedPath ctx loc p)) =
          prefixedPath ctx loc p ++ (if ctx.opts.trailingSlash then ['/'] else []) := by
      cases hts : ctx.opts.trailingSlash with
      | true =>
        simp only [if_true]
        exact withTrailingSlashQF_no_special hp1q hp1h hp1l
      | false =>
        simp only [Bool.false_eq_true, if_false, List.append_nil]
        exact withoutTrailingSlashQF_no_special hp1ne hp1q hp1h hp1l
    rw [← hbody]
    rw [prefixedPath]
  · cases hts : ctx.opts.trailingSlash with
    | true =>
      simp only [if_true, List.getLast?_concat]
    | false =>
      simp only [Bool.false_eq_true, if_false, List.append_nil]
      simp only [iff_false, ne_eq]
      exact hp1l

/-- The witness context for C1: strategy `prefix`, `trailingSlash = false`,
a discovery resolve that returns an unnamed route. -/
def ctxC1 : Ctx :=
  { router :=
      { resolve := fun _ => Except.ok { fullPath := str ("/fr/about") },
        discover := fun _ _ _ => Except.ok { name := none } },
    currentRoute := none,
    opts := mkOpts Strategy.prefixStrat false,
    i18nLocale := str ("en") }

/-- Witness for the amended C1 and the claim's scenario: strategy `prefix`,
path `/about`, locale `fr`, `trailingSlash = false` — the localized path is
`/fr/about`. -/
theorem C1_path_fallback_witness :
    localizeStep ctxC1 (RouteRef.obj { path := some (str ("/about")) })
        (some (str ("fr"))) =
      LStep.final { path := some (str ("/fr/about")) } := by
  have h := (C1_path_fallback ctxC1 { path := some (str ("/about")) }
    (some (str ("fr"))) (str ("/about")) rfl rfl (by decide) (by decide)
    (by decide) (by decide) (by decide) (by decide) (by decide)).1
  exact h.trans (by decide)

/-- JavaScript object property lookup on an association list. -/
def lookupAL {α : Type} (l : List (Str × α)) (k : Str) : Option α :=
  (l.find? (fun kv => kv.1 == k)).map (fun kv => kv.2)

/-- JavaScript object spread `{...a, ...b}`: the keys of `a` in order, with
`b`'s value where `b` has the same key, followed by `b`'s new keys in
order. -/
def spreadMerge (a b : Params) : Params :=
  a.map (fun kv => (kv.1, (lookupAL b kv.1).getD kv.2)) ++
    b.filter (fun kv => (lookupAL a kv.1).isNone)

theorem lookupAL_spreadMerge_of_not_overridden (a b : Params) (k : Str)
    (h : lookupAL b k = none) : lookupAL (spreadMerge a b) k = lookupAL a k := by
  have hbf : b.find? (fun kv => kv.1 == k) = none := by
    rw [lookupAL] at h
    exact Option.map_eq_none'.mp h
  have hfilter : (List.filter (fun kv => (lookupAL a kv.1).isNone) b).find?
      (fun kv => kv.1 == k) = none := by
    rw [List.find?_eq_none]
    intro kv hm hbeq
    exact (List.find?_eq_none.mp hbf kv (List.mem_filter.mp hm).1) hbeq
  rw [spreadMerge, lookupAL, List.find?_append, hfilter, Option.or_none, List.find?_map]
  have hcomp : ((fun kv => kv.1 == k) ∘
      (fun kv : Str × Str => (kv.1, (lookupAL b kv.1).getD kv.2))) =
      (fun kv : Str × Str => kv.1 == k) := rfl
  rw [hcomp, lookupAL]
  cases hfa : a.find? (fun kv => kv.1 == k) with
  | none => rfl
  | some kv0 =>
    have hp := List.find?_some hfa
    have hk : kv0.1 = k := beq_iff_eq.mp hp
    show some ((lookupAL b kv0.1).getD kv0.2) = some kv0.2
    rw [hk, h]
    rfl

/-- `getLocalizableMetaFromDynamicParams` (lines 234-251): the empty object
when the configured key equals `DEFAULT_DYNAMIC_PARAMS_KEY` — the route's
`meta` is not read at all in that case — otherwise `route.meta[key] || {}`
(both the reactive-reference and the plain shape of `meta` read the same
data, so the indirection is collapsed). -/
def metaDynamicParams (route : RouteObj) (key : Str) : List (Str × Params) :=
  if key = DEFAULT_DYNAMIC_PARAMS_KEY then []
  else
    match lookupAL route.meta key with
    | some m => m
    | none => []

/-- Modelled from the spec: the helper `routeToObject` (from `./utils`, not
part of the excerpt) copies the current route's location fields into a plain
location object (§4.5 step 4, "current route's fields"). -/
def routeToObject (r : RouteObj) : RawRoute :=
  { name := r.name, path := some r.path, params := r.params,
    query := r.query, hash := r.hash, state := none }

/-- The per-locale dynamic-params choice of `switchLocalePath` (lines
282-285): the interceptor-supplied override for the target locale when
present (`dynamicParamsInterceptor?.()?.value?.[locale]`), else the
metadata-derived override for the locale
(`getLocalizableMetaFromDynamicParams(route, key)[locale] || {}`), else the
empty object. -/
def switchResolvedParams (ctx : Ctx) (route : RouteObj) (locale : Str) : Params :=
  (ctx.opts.dynamicParamsInterceptor.bind (fun m => lookupAL m locale)).getD
    ((lookupAL (metaDynamicParams route ctx.opts.dynamicRouteParamsKey) locale).getD [])

/-- The candidate route built by `switchLocalePath` (lines 288-296): the
copied current route overlaid with the base name and with the current params
spread-merged with the chosen per-locale override. -/
def switchBaseRoute (ctx : Ctx) (route : RouteObj) (n : Str) (locale : Str) : RawRoute :=
  { routeToObject route with
    name := some n,
    params :=
      spreadMerge (routeToObject route).params (switchResolvedParams ctx route locale) }

/-- `switchLocalePath` (lines 268-303): empty string when the current
route's base name is missing or empty; otherwise localize the candidate
route for the target locale via `localePath` and pass the result through the
configured switch-path interceptor. -/
def switchLocalePath (ctx : Ctx) (locale : Str) : PathResult :=
  match getRouteBaseName ctx ctx.currentRoute with
  | none => PathResult.path []
  | some n =>
    if n = [] then PathResult.path []
    else
      match ctx.currentRoute with
      | none => PathResult.path []
      | some route =>
        match localePath ctx (RouteRef.obj (switchBaseRoute ctx route n locale))
            (some locale) with
        | PathResult.err => PathResult.err
        | PathResult.path p =>
          PathResult.path (ctx.opts.switchLocalePathIntercepter p locale)

/-- Claim C8 (confirmed): when the current route's base name (per
`getRouteBaseName`) is missing or empty, `switchLocalePath` returns the
empty string immediately, for every target locale. -/
theorem C8_switch_empty_name (ctx : Ctx) (locale : Str)
    (h : getRouteBaseName ctx ctx.currentRoute = none ∨
      getRouteBaseName ctx ctx.currentRoute = some []) :
    switchLocalePath ctx locale = PathResult.path [] := by
  rcases h with h | h
  · simp only [switchLocalePath, h]
  · simp only [switchLocalePath, h]
    rfl

/-- The witness context for C8: there is no current route, so no base
name. -/
def ctxC8 : Ctx :=
  { router := errRouter (some 1),
    currentRoute := none,
    opts := mkOpts Strategy.prefixStrat false,
    i18nLocale := str ("en") }

/-- Witness for C8: switching locale with no current route yields the empty
string. -/
theorem C8_switch_empty_name_witness :
    switchLocalePath ctxC8 (str ("fr")) = PathResult.path [] :=
  C8_switch_empty_name ctxC8 (str ("fr")) (Or.inl (by decide))

/-- Claim C9 (confirmed): the dynamic parameters applied for the target
locale are the interceptor-supplied override when present, else the
metadata-derived override, else the empty object; the candidate route's
params are the current route's params overlaid with that choice, so every
current param whose key the choice does not override is preserved
unchanged; and `switchLocalePath` localizes exactly that candidate (then
applies the switch-path interceptor). -/
theorem C9_switch_params_priority (ctx : Ctx) (route : RouteObj) (n : Str) (locale : Str)
    (hcur : ctx.currentRoute = some route)
    (hname : getRouteBaseName ctx ctx.currentRoute = some n) (hne : n ≠ []) :
    (switchResolvedParams ctx route locale =
      (match ctx.opts.dynamicParamsInterceptor.bind (fun m => lookupAL m locale) with
        | some i => i
        | none =>
          (lookupAL (metaDynamicParams route ctx.opts.dynamicRouteParamsKey) locale).getD
            [])) ∧
    (switchBaseRoute ctx route n locale).params =
      spreadMerge route.params (switchResolvedParams ctx route locale) ∧
    (∀ k : Str, lookupAL (switchResolvedParams ctx route locale) k = none →
      lookupAL (switchBaseRoute ctx route n locale).params k = lookupAL route.params k) ∧
    switchLocalePath ctx locale =
      (match localePath ctx (RouteRef.obj (switchBaseRoute ctx route n locale))
          (some locale) with
        | PathResult.err => PathResult.err
        | PathResult.path p =>
          PathResult.path (ctx.opts.switchLocalePathIntercepter p locale)) := by
  refine ⟨?_, rfl, ?_, ?_⟩
  · rw [switchResolvedParams]
    cases hint : ctx.opts.dynamicParamsInterceptor.bind (fun m => lookupAL m locale) with
    | none => rfl
    | some i => rfl
  · intro k hk
    have h1 : (switchBaseRoute ctx route n locale).params =
        spreadMerge route.params (switchResolvedParams ctx route locale) := rfl
    rw [h1]
    exact lookupAL_spreadMerge_of_not_overridden _ _ _ hk
  · rw [switchLocalePath, hname, hcur]
    simp only [hne, if_false]

/-- The current route of the C9 witness: base name `post`, params `slug` and
`id`, and per-locale dynamic-params metadata under the non-default key
`dynKey` giving `slug = bonjour` for locale `fr`. -/
def routeC9 : RouteObj :=
  { name := some (str ("post___en")),
    params := [(str ("slug"), str ("hello")), (str ("id"), str ("7"))],
    meta := [(str ("dynKey"), [(str ("fr"), [(str ("slug"), str ("bonjour"))])])] }

/-- The witness options for C9: `dynamicRouteParamsKey` set to `dynKey`. -/
def optsC9 : RoutingOptions :=
  { mkOpts Strategy.prefixStrat false with dynamicRouteParamsKey := str ("dynKey") }

/-- The witness context for C9. -/
def ctxC9 : Ctx :=
  { router := errRouter (some 1),
    currentRoute := some routeC9,
    opts := optsC9,
    i18nLocale := str ("en") }

/-- Witness for C9: for locale `fr` the metadata override merges
`slug = bonjour` into the candidate params while the non-overridden param
`id = 7` is preserved unchanged. -/
theorem C9_switch_params_priority_witness :
    lookupAL (switchBaseRoute ctxC9 routeC9 (str ("post")) (str ("fr"))).params
        (str ("id")) = some (str ("7")) ∧
    lookupAL (switchBaseRoute ctxC9 routeC9 (str ("post")) (str ("fr"))).params
        (str ("slug")) = some (str ("bonjour")) := by
  have h := (C9_switch_params_priority ctxC9 routeC9 (str ("post")) (str ("fr"))
    rfl (by decide) (by decide)).2.2.1 (str ("id")) (by decide)
  exact ⟨h.trans (by decide), by decide⟩

/-- Claim C10 (confirmed): when the configured `dynamicRouteParamsKey`
equals `DEFAULT_DYNAMIC_PARAMS_KEY`, the metadata-derived per-locale
override is always the empty object — the route's `meta` entry under that
key is never read (replacing `meta` wholesale changes nothing) — so the
chosen override degenerates to the interceptor-supplied one or the empty
object. -/
theorem C10_default_key_ignores_meta (ctx : Ctx) (route : RouteObj) (locale : Str)
    (m : List (Str × List (Str × Params)))
    (hkey : ctx.opts.dynamicRouteParamsKey = DEFAULT_DYNAMIC_PARAMS_KEY) :
    metaDynamicParams route ctx.opts.dynamicRouteParamsKey = [] ∧
    metaDynamicParams { route with meta := m } ctx.opts.dynamicRouteParamsKey = [] ∧
    switchResolvedParams ctx route locale =
      (ctx.opts.dynamicParamsInterceptor.bind (fun mm => lookupAL mm locale)).getD [] := by
  have h1 : metaDynamicParams route ctx.opts.dynamicRouteParamsKey = [] := by
    simp [metaDynamicParams, hkey]
  refine ⟨h1, by simp [metaDynamicParams, hkey], ?_⟩
  rw [switchResolvedParams, h1]
  rfl

/-- The current route of the C10 witness: dynamic-params metadata stored
under the default key with a `fr` override that the code never reads. -/
def routeC10 : RouteObj :=
  { name := some (str ("post___en")),
    params := [(str ("slug"), str ("hello"))],
    meta := [(DEFAULT_DYNAMIC_PARAMS_KEY,
      [(str ("fr"), [(str ("slug"), str ("bonjour"))])])] }

/-- The witness context for C10: the default dynamic-params key is
configured. -/
def ctxC10 : Ctx :=
  { router := errRouter (some 1),
    currentRoute := some routeC10,
    opts := mkOpts Strategy.prefixStrat false,
    i18nLocale := str ("en") }

/-- Witness for C10: although `routeC10.meta` carries a `fr` override under
the default key, the chosen override for `fr` is empty. -/
theorem C10_default_key_ignores_meta_witness :
    switchResolvedParams ctxC10 routeC10 (str ("fr")) = [] := by
  have h := (C10_default_key_ignores_meta ctxC10 routeC10 (str ("fr")) [] rfl).2.2
  exact h.trans (by decide)

end I18nRouting
